import Mathlib

/-!
Shallow embedding of `filehandlers` (src/filehandlers/__init__.py).

The file system is modelled as a partial map from path names to file
contents; a path is mapped to `none` exactly when no file exists there.
A `File` handle carries the path name, the advisory
`allow_non_existing_file` flag, and the line cache.  In the source the
`cache` attribute is only ever assigned inside `refresh`, and `refresh`
returns early when the file does not exist, so a handle constructed on an
absent path has no `cache` attribute at all (reading it raises
`AttributeError`); the cache field is therefore an `Option`, with `none`
modelling the never-assigned attribute.

Methods that mutate the Python object or the file system are embedded in
state-passing style: they take the current file system (and handle) and
return the updated one together with their result.  A method whose Python
body never assigns to `self` is embedded as returning no handle (or the
handle unchanged), which is exactly what the source does.
-/

namespace Filehandlers

/-- The file system: each path name is mapped to the content of the file
stored there, or to `none` when no such file exists. -/
def FS : Type := String → Option String

/-- `os.path.exists`: a path exists when the file system maps it to some
content. -/
def os_path_exists (fs : FS) (p : String) : Bool :=
  (fs p).isSome

/-- The handle class `File`.  `cache = none` models the state in which the
Python attribute `cache` has never been assigned (class-level annotation
only); reading it in that state raises `AttributeError`. -/
structure File where
  name : String
  allow_non_existing_file : Bool
  cache : Option (List String)

/-- `File.get_file_name`: returns `str(self)`, which is `self.name`. -/
def File.get_file_name (f : File) : String :=
  f.name

/-- `File.touch`: `open(name, mode="a").close()` — append mode creates the
file empty when it is absent and leaves existing content untouched. -/
def File.touch (f : File) (fs : FS) : FS :=
  fun q => if q = f.get_file_name then some ((fs f.get_file_name).getD "") else fs q

/-- `File.exists`: sets `e = False`; if `os.path.exists(self.name)` it sets
`e = True` and, when `touch_if_false` is true, touches the file; then
returns `e`.  Note that in the source the touch happens inside the branch
where the file already exists (the Python default for `touch_if_false` is
`False`).  Returns the result together with the (possibly) updated file
system. -/
def File.existsFile (f : File) (fs : FS) (touch_if_false : Bool) : Bool × FS :=
  if os_path_exists fs f.name then
    (true, if touch_if_false then f.touch fs else fs)
  else
    (false, fs)

/-- Python `list.readlines` semantics on a content string: split after every
newline character, keeping the terminator on each line; a final fragment
without a terminator is kept as-is; the empty content yields no lines.
`acc` holds the characters of the current line, in reverse. -/
def readlinesAux : List Char → List Char → List String
  | [], acc => if acc.isEmpty then [] else [String.mk acc.reverse]
  | c :: rest, acc =>
    if c = '\n' then String.mk (acc.reverse ++ ['\n']) :: readlinesAux rest []
    else readlinesAux rest (c :: acc)

/-- `fh.readlines()` on a file whose content is `s`. -/
def readlines (s : String) : List String :=
  readlinesAux s.data []

/-- `s.replace("\n", "")`: since the pattern is the single character `'\n'`
and the replacement is empty, Python's replace removes every newline
character from the string. -/
def stripNewlines (s : String) : String :=
  String.mk (s.data.filter (fun c => !(c = '\n')))

/-- The body of the `for index, element in enumerate(self.cache)` loop in
`File.refresh`.  Python's iterator keeps an internal position: at each step
it reads the element at `index` of the *current* list.  When
`slim and self.cache[index] == ""` holds, `pop(index)` removes that element
and the iterator still moves on to `index + 1` of the shortened list (so
the element that slid into position `index` is skipped); otherwise the
element at `index` is replaced by its newline-stripped form.  The loop ends
when `index` reaches the current length.  `fuel` bounds the number of
iterations; the caller passes the initial list length, which suffices
because `index` grows by one per iteration while the length never grows,
so after `fuel` iterations the guard `index < length` has already failed. -/
def refreshLoop (slim : Bool) : Nat → Nat → List String → List String
  | 0, _, cache => cache
  | fuel + 1, index, cache =>
    if h : index < cache.length then
      if slim && (cache.get ⟨index, h⟩ == "") then
        refreshLoop slim fuel (index + 1) (cache.eraseIdx index)
      else
        refreshLoop slim fuel (index + 1) (cache.set index (stripNewlines (cache.get ⟨index, h⟩)))
    else cache

/-- `File.refresh`: if the file does not exist, return early leaving the
handle unchanged (in particular `cache` keeps its previous value, or stays
unassigned).  Otherwise read all lines and run the strip/slim loop over
them, storing the result in `cache`.  The Python default for `slim` is
`False`. -/
def File.refresh (f : File) (fs : FS) (slim : Bool) : File :=
  if (f.existsFile fs false).1 then
    let lines := readlines ((fs f.get_file_name).getD "")
    { f with cache := some (refreshLoop slim lines.length 0 lines) }
  else
    f

/-- `File.__init__`: store the name and the flag, then `self.refresh()`
(with the default `slim = False`).  The Python default for
`allow_non_existing_file` is `True`. -/
def File.init (name : String) (allow_non_existing_file : Bool) (fs : FS) : File :=
  File.refresh { name := name, allow_non_existing_file := allow_non_existing_file, cache := none }
    fs false

/-- `File.get_cache`: returns `self.cache`.  The result is `none` exactly
when the attribute was never assigned, in which case the Python attribute
access raises `AttributeError`. -/
def File.get_cache (f : File) : Option (List String) :=
  f.cache

/-- `File.write_to_file`: opens the path with mode `OpenModes.WRITE.value`
(`"w"`, which truncates existing content or creates the file) and writes
`string` verbatim.  The body never assigns to `self`, so the handle is
returned unchanged. -/
def File.write_to_file (f : File) (fs : FS) (string : String) : File × FS :=
  (f, fun q => if q = f.get_file_name then some string else fs q)

/-- `File.clear_file`: opens the path with mode `OpenModes.CLEAR.value`
(an alias of `WRITE`, `"w"`) and immediately closes it, truncating the file
to empty content.  The body never assigns to `self`, so the handle is
returned unchanged. -/
def File.clear_file (f : File) (fs : FS) : File × FS :=
  (f, fun q => if q = f.get_file_name then some "" else fs q)

/-- `File.get_file_contents_singlestring`: opens for read and returns the
whole content as one string; `none` models the `FileNotFoundError` raised
when the path does not exist.  The body never reads nor assigns `cache`. -/
def File.get_file_contents_singlestring (f : File) (fs : FS) : Option String :=
  fs f.get_file_name

/-- `File.delete`: if `self.exists()` then `os.remove` the path and return
`True`, else return `False`.  Returns the result together with the updated
file system. -/
def File.delete (f : File) (fs : FS) : Bool × FS :=
  if (f.existsFile fs false).1 then
    (true, fun q => if q = f.get_file_name then none else fs q)
  else
    (false, fs)

/-- Modelled from the spec: the decoded structure returned by the standard
JSON decoder — "a single valid JSON document (object, array, or scalar)
encoded as text".  Numbers carry their exact rational value (the standard
decoder returns an integer for integer literals and a binary float for
fractional or exponent forms; the float's rounding is outside this model).
Object members are kept in parse order; the standard decoder's dictionary
additionally collapses duplicate keys, which is outside this model. -/
inductive JsonValue where
  | null : JsonValue
  | bool : Bool → JsonValue
  | num : Rat → JsonValue
  | str : String → JsonValue
  | arr : List JsonValue → JsonValue
  | obj : List (String × JsonValue) → JsonValue

/-- Skip JSON whitespace (space, newline, carriage return, tab). -/
def skipWs : List Char → List Char
  | c :: rest =>
    if c = ' ' ∨ c = '\n' ∨ c = '\r' ∨ c = '\t' then skipWs rest else c :: rest
  | [] => []

/-- The value of a hexadecimal digit, or `none` for any other character. -/
def hexVal (c : Char) : Option Nat :=
  if c.isDigit then some (c.toNat - 48)
  else if 'a' ≤ c ∧ c ≤ 'f' then some (c.toNat - 87)
  else if 'A' ≤ c ∧ c ≤ 'F' then some (c.toNat - 55)
  else none

/-- Parse the body of a JSON string after its opening quote; `acc` holds
the decoded characters in reverse.  Per the JSON grammar, every escape of
the grammar is accepted — the short escapes and the four-hex-digit `\u`
form — and an unescaped control character (code point below 32) makes the
string invalid.  A `\u` escape is decoded to the character of its code
point (the combining of surrogate pairs is outside this model; acceptance
is unaffected). -/
def parseStringBody : List Char → List Char → Option (String × List Char)
  | [], _ => none
  | '\"' :: rest, acc => some (String.mk acc.reverse, rest)
  | '\\' :: e :: rest, acc =>
    if e = '\"' then parseStringBody rest ('\"' :: acc)
    else if e = '\\' then parseStringBody rest ('\\' :: acc)
    else if e = '/' then parseStringBody rest ('/' :: acc)
    else if e = 'b' then parseStringBody rest (Char.ofNat 8 :: acc)
    else if e = 'f' then parseStringBody rest (Char.ofNat 12 :: acc)
    else if e = 'n' then parseStringBody rest ('\n' :: acc)
    else if e = 'r' then parseStringBody rest ('\r' :: acc)
    else if e = 't' then parseStringBody rest ('\t' :: acc)
    else if e = 'u' then
      match rest with
      | h1 :: h2 :: h3 :: h4 :: rest2 =>
        match hexVal h1, hexVal h2, hexVal h3, hexVal h4 with
        | some v1, some v2, some v3, some v4 =>
          parseStringBody rest2 (Char.ofNat (((v1 * 16 + v2) * 16 + v3) * 16 + v4) :: acc)
        | _, _, _, _ => none
      | _ => none
    else none
  | c :: rest, acc =>
    if c.toNat < 32 then none else parseStringBody rest (c :: acc)

/-- Take the longest (possibly empty) prefix of decimal digits. -/
def takeDigits : List Char → List Char × List Char
  | c :: rest =>
    if c.isDigit then
      let (ds, rem) := takeDigits rest
      (c :: ds, rem)
    else ([], c :: rest)
  | [] => ([], [])

/-- The natural number denoted by a list of decimal digits. -/
def digitsToNat : List Char → Nat → Nat
  | [], acc => acc
  | c :: rest, acc => digitsToNat rest (acc * 10 + (c.toNat - 48))

/-- The integer part of a JSON number: a single `0`, or a nonzero digit
followed by any digits (the grammar forbids leading zeros). -/
def parseIntPart : List Char → Option (List Char × List Char)
  | '0' :: rest => some (['0'], rest)
  | c :: rest =>
    if c.isDigit then
      let (ds, rem) := takeDigits rest
      some (c :: ds, rem)
    else none
  | [] => none

/-- The optional fraction of a JSON number: a dot followed by at least one
digit.  `some ([], _)` means no fraction is present; `none` means a dot
without digits, which makes the number invalid. -/
def parseFrac : List Char → Option (List Char × List Char)
  | '.' :: rest =>
    match takeDigits rest with
    | ([], _) => none
    | (ds, rem) => some (ds, rem)
  | cs => some ([], cs)

/-- The optional exponent of a JSON number: `e` or `E`, an optional sign,
and at least one digit.  `some (0, _)` with nothing consumed means no
exponent is present; `none` means an exponent marker without digits, which
makes the number invalid. -/
def parseExp : List Char → Option (Int × List Char)
  | c :: rest =>
    if c = 'e' ∨ c = 'E' then
      match rest with
      | '+' :: rest2 =>
        match takeDigits rest2 with
        | ([], _) => none
        | (ds, rem) => some ((digitsToNat ds 0 : Int), rem)
      | '-' :: rest2 =>
        match takeDigits rest2 with
        | ([], _) => none
        | (ds, rem) => some (-(digitsToNat ds 0 : Int), rem)
      | _ =>
        match takeDigits rest with
        | ([], _) => none
        | (ds, rem) => some ((digitsToNat ds 0 : Int), rem)
    else some (0, c :: rest)
  | [] => some (0, [])

/-- The exact rational value of a JSON number with the given sign, integer
digits, fraction digits and exponent. -/
def jsonNumberVal (neg : Bool) (intDs fracDs : List Char) (e : Int) : Rat :=
  let m : Int := (digitsToNat (intDs ++ fracDs) 0 : Int)
  let m : Int := if neg then -m else m
  let p : Int := e - (fracDs.length : Int)
  if 0 ≤ p then mkRat (m * 10 ^ p.toNat) 1 else mkRat m (10 ^ (-p).toNat)

/-- A JSON number per the grammar: optional minus, integer part, optional
fraction, optional exponent. -/
def parseNumber (cs : List Char) : Option (JsonValue × List Char) :=
  let (neg, cs1) := match cs with
    | '-' :: rest => (true, rest)
    | _ => (false, cs)
  match parseIntPart cs1 with
  | none => none
  | some (intDs, cs2) =>
    match parseFrac cs2 with
    | none => none
    | some (fracDs, cs3) =>
      match parseExp cs3 with
      | none => none
      | some (e, cs4) => some (JsonValue.num (jsonNumberVal neg intDs fracDs e), cs4)

mutual

/-- Modelled from the spec: recursive-descent parser for a JSON value,
standing in for the standard decoder `loads` delegated to by the source and
following the JSON grammar ("no schema is enforced beyond valid JSON
syntax").  `fuel` bounds the nesting depth; every recursive call consumes
at least one character first, so a fuel of the input length plus one is
always enough. -/
def parseValue : Nat → List Char → Option (JsonValue × List Char)
  | 0, _ => none
  | fuel + 1, cs =>
    match skipWs cs with
    | 'n' :: 'u' :: 'l' :: 'l' :: rest => some (JsonValue.null, rest)
    | 't' :: 'r' :: 'u' :: 'e' :: rest => some (JsonValue.bool true, rest)
    | 'f' :: 'a' :: 'l' :: 's' :: 'e' :: rest => some (JsonValue.bool false, rest)
    | '\"' :: rest =>
      match parseStringBody rest [] with
      | some (s, rest2) => some (JsonValue.str s, rest2)
      | none => none
    | '-' :: rest => parseNumber ('-' :: rest)
    | '[' :: rest =>
      match skipWs rest with
      | ']' :: rest2 => some (JsonValue.arr [], rest2)
      | cs2 => parseArrayElems fuel cs2 []
    | '\x7b' :: rest =>
      match skipWs rest with
      | '\x7d' :: rest2 => some (JsonValue.obj [], rest2)
      | cs2 => parseObjMembers fuel cs2 []
    | c :: rest =>
      if c.isDigit then parseNumber (c :: rest)
      else none
    | [] => none

/-- Elements of a nonempty JSON array: at least one value, then either a
comma and more elements or the closing bracket (the grammar forbids a
trailing comma); `acc` holds the elements parsed so far, in reverse. -/
def parseArrayElems : Nat → List Char → List JsonValue → Option (JsonValue × List Char)
  | 0, _, _ => none
  | fuel + 1, cs, acc =>
    match parseValue fuel cs with
    | some (v, rest) =>
      match skipWs rest with
      | ',' :: rest2 => parseArrayElems fuel (skipWs rest2) (v :: acc)
      | ']' :: rest2 => some (JsonValue.arr (v :: acc).reverse, rest2)
      | _ => none
    | none => none

/-- Members of a nonempty JSON object: at least one string key, colon and
value, then either a comma and more members or the closing brace (the
grammar forbids a trailing comma); `acc` holds the members parsed so far,
in reverse. -/
def parseObjMembers : Nat → List Char → List (String × JsonValue) → Option (JsonValue × List Char)
  | 0, _, _ => none
  | fuel + 1, cs, acc =>
    match cs with
    | '\"' :: rest =>
      match parseStringBody rest [] with
      | some (k, rest2) =>
        match skipWs rest2 with
        | ':' :: rest3 =>
          match parseValue fuel rest3 with
          | some (v, rest4) =>
            match skipWs rest4 with
            | ',' :: rest5 => parseObjMembers fuel (skipWs rest5) ((k, v) :: acc)
            | '\x7d' :: rest5 => some (JsonValue.obj ((k, v) :: acc).reverse, rest5)
            | _ => none
          | none => none
        | _ => none
      | none => none
    | _ => none

end

/-- Modelled from the spec: `json.loads` — parse the whole string as one
JSON document; `none` models the `JSONDecodeError` raised when the content
is not valid JSON (including trailing non-whitespace after the document). -/
def jsonLoads (s : String) : Option JsonValue :=
  match parseValue (s.length + 1) s.data with
  | some (v, rest) => if skipWs rest = [] then some v else none
  | none => none

/-- `File.load_from_json`: `loads(self.get_file_contents_singlestring())`.
The outer `none` models the `FileNotFoundError` from the read; the inner
`none` models the decode error. -/
def File.load_from_json (f : File) (fs : FS) : Option (Option JsonValue) :=
  (f.get_file_contents_singlestring fs).map jsonLoads

end Filehandlers

namespace Filehandlers

/-- The boolean returned by `File.exists` is just the existence check; the
touch, when it happens at all, happens after `e` was set. -/
theorem existsFile_fst (f : File) (fs : FS) (t : Bool) :
    (f.existsFile fs t).1 = os_path_exists fs f.name := by
  unfold File.existsFile
  split <;> simp_all

/-- With `touch_if_false = false`, `File.exists` never changes the file
system. -/
theorem existsFile_snd (f : File) (fs : FS) :
    (f.existsFile fs false).2 = fs := by
  unfold File.existsFile
  split <;> rfl

/-- Unfolding of `File.refresh` through the `exists` call. -/
theorem refresh_spec (f : File) (fs : FS) (slim : Bool) :
    f.refresh fs slim =
      if os_path_exists fs f.name then
        { f with cache := some (refreshLoop slim (readlines ((fs f.name).getD "")).length 0
            (readlines ((fs f.name).getD ""))) }
      else f := by
  unfold File.refresh
  rw [existsFile_fst]
  rfl

/-- `refresh` never changes the stored name. -/
theorem refresh_name (f : File) (fs : FS) (slim : Bool) :
    (f.refresh fs slim).name = f.name := by
  rw [refresh_spec]
  split <;> rfl

end Filehandlers
namespace Filehandlers

/-- C1: what the code actually does at the failing input.  On a file system
where no file exists, a handle on "notes.txt" calling
`exists(touch_if_false=True)` returns `false`, creates nothing (the path is
still absent afterwards), and therefore the immediately subsequent
`exists()` call also returns `false` — the claim instead requires the file
to be created so that the second call returns `true`. -/
theorem C1_exists_touch_absent_code_behavior :
    (((File.init "notes.txt" true (fun _ => none)).existsFile (fun _ => none) true).1 = false)
    ∧ (((File.init "notes.txt" true (fun _ => none)).existsFile (fun _ => none) true).2
        "notes.txt" = none)
    ∧ (((File.init "notes.txt" true (fun _ => none)).existsFile
        (((File.init "notes.txt" true (fun _ => none)).existsFile (fun _ => none) true).2)
        false).1 = false) := by
  refine ⟨rfl, rfl, rfl⟩

/-- C2: what the code actually does at the failing input.  On a file whose
content is "a\n\nb", `refresh(slim=True)` produces the cache
["a", "", "b"]: the middle line, which consisted of a single newline,
is stripped to the empty string but NOT removed (the slim test compares the
line against "" before the newline was stripped, and `readlines` never
yields an empty string) — the claim instead requires it to be dropped,
giving ["a", "b"]. -/
theorem C2_refresh_slim_code_behavior :
    ((File.init "test.txt" true
        (fun q => if q = "test.txt" then some "a\n\nb" else none)).refresh
      (fun q => if q = "test.txt" then some "a\n\nb" else none) true).get_cache
      = some ["a", "", "b"] := by
  decide

/-- C3: what the code actually does at the failing input.  A handle freshly
constructed on the absent path "test.txt" whose `touch()` is then called:
`exists()` on the touched file system does return `true`, but `get_cache()`
is `none` — the constructor's `refresh` returned early without ever
assigning the `cache` attribute, and `touch` does not assign it either, so
the Python attribute access raises `AttributeError` instead of returning
the empty sequence the claim requires. -/
theorem C3_touch_then_cache_code_behavior :
    (((File.init "test.txt" true (fun _ => none)).existsFile
        ((File.init "test.txt" true (fun _ => none)).touch (fun _ => none)) false).1 = true)
    ∧ (File.init "test.txt" true (fun _ => none)).get_cache = none := by
  refine ⟨rfl, rfl⟩

/-- C4: writing the string "cool\nthings" through the handle and then
calling `refresh()` (with its default `slim = False`) leaves the cache
equal to ["cool", "things"], whatever the prior file system and handle
state. -/
theorem C4_write_refresh_roundtrip (fs : FS) (f : File) :
    ((f.write_to_file fs "cool\nthings").1.refresh
      (f.write_to_file fs "cool\nthings").2 false).get_cache
      = some ["cool", "things"] := by
  have h1 : (f.write_to_file fs "cool\nthings").1 = f := rfl
  have h2 : (f.write_to_file fs "cool\nthings").2 f.name = some "cool\nthings" := by
    simp [File.write_to_file, File.get_file_name]
  rw [h1, refresh_spec]
  simp only [os_path_exists, h2, Option.isSome_some, if_true, Option.getD_some, File.get_cache]
  decide

/-- C5: after `write_to_file s`, reading the file back with
`get_file_contents_singlestring` returns exactly `s`, newlines included;
the read depends only on the file system and the stored name, never on the
cache (replacing the cache field arbitrarily does not change the result),
and the write leaves the handle's cache untouched. -/
theorem C5_singlestring_roundtrip (fs : FS) (f : File) (s : String) :
    ((f.write_to_file fs s).1.get_file_contents_singlestring (f.write_to_file fs s).2 = some s)
    ∧ (∀ c, File.get_file_contents_singlestring { f with cache := c } fs
        = f.get_file_contents_singlestring fs)
    ∧ (f.write_to_file fs s).1.get_cache = f.get_cache := by
  refine ⟨?_, fun c => rfl, rfl⟩
  simp [File.write_to_file, File.get_file_contents_singlestring, File.get_file_name]

/-- C6: `write_to_file` and `clear_file` leave the handle (in particular
its cache field) unchanged, and they change the on-disk content of no path
other than the handle's own. -/
theorem C6_write_clear_frame (fs : FS) (f : File) (s : String) (q : String)
    (h : q ≠ f.name) :
    ((f.write_to_file fs s).1.cache = f.cache)
    ∧ ((f.clear_file fs).1.cache = f.cache)
    ∧ ((f.write_to_file fs s).2 q = fs q)
    ∧ ((f.clear_file fs).2 q = fs q) := by
  refine ⟨rfl, rfl, ?_, ?_⟩ <;>
    simp [File.write_to_file, File.clear_file, File.get_file_name, h]

/-- Witness for C6 at a concrete input. -/
theorem C6_write_clear_frame_witness :
    (((File.init "a.txt" true (fun _ => none)).write_to_file (fun _ => none) "x").1.cache
      = (File.init "a.txt" true (fun _ => none)).cache)
    ∧ (((File.init "a.txt" true (fun _ => none)).clear_file (fun _ => none)).1.cache
      = (File.init "a.txt" true (fun _ => none)).cache)
    ∧ (((File.init "a.txt" true (fun _ => none)).write_to_file (fun _ => none) "x").2 "b.txt"
      = (fun _ => (none : Option String)) "b.txt")
    ∧ (((File.init "a.txt" true (fun _ => none)).clear_file (fun _ => none)).2 "b.txt"
      = (fun _ => (none : Option String)) "b.txt") :=
  C6_write_clear_frame (fun _ => none) (File.init "a.txt" true (fun _ => none)) "x" "b.txt"
    (by decide)

/-- C7: `delete` on an existing file returns `true` and leaves a file
system on which `exists()` is `false`; on an absent file it returns `false`
and leaves the file system unchanged; and a second consecutive `delete`
always returns `false`. -/
theorem C7_delete (fs : FS) (f : File) :
    ((fs f.name).isSome = true →
      (f.delete fs).1 = true ∧ (f.existsFile (f.delete fs).2 false).1 = false)
    ∧ ((fs f.name).isSome = false →
      (f.delete fs).1 = false ∧ (f.delete fs).2 = fs)
    ∧ (f.delete (f.delete fs).2).1 = false := by
  have hfst : ∀ fs', (f.existsFile fs' false).1 = os_path_exists fs' f.name :=
    fun fs' => existsFile_fst f fs' false
  constructor
  · intro h
    have hd : f.delete fs = (true, fun q => if q = f.get_file_name then none else fs q) := by
      unfold File.delete
      rw [hfst]
      simp [os_path_exists, h]
    refine ⟨by rw [hd], ?_⟩
    rw [hd, hfst]
    simp [os_path_exists, File.get_file_name]
  · constructor
    · intro h
      have hd : f.delete fs = (false, fs) := by
        unfold File.delete
        rw [hfst]
        simp [os_path_exists, h]
      exact ⟨by rw [hd], by rw [hd]⟩
    · by_cases h : (fs f.name).isSome = true
      · have hd : f.delete fs = (true, fun q => if q = f.get_file_name then none else fs q) := by
          unfold File.delete
          rw [hfst]
          simp [os_path_exists, h]
        rw [hd]
        unfold File.delete
        rw [hfst]
        simp [os_path_exists, File.get_file_name]
      · have hd : f.delete fs = (false, fs) := by
          unfold File.delete
          rw [hfst]
          simp [os_path_exists, h]
        rw [hd]
        unfold File.delete
        rw [hfst]
        simp [os_path_exists]
        simp at h
        simp [h]

/-- Witness for C7 at a concrete input: a file system holding "a.txt". -/
theorem C7_delete_witness :
    (((File.init "a.txt" true (fun q => if q = "a.txt" then some "x" else none)).delete
        (fun q => if q = "a.txt" then some "x" else none)).1 = true)
    ∧ (((File.init "a.txt" true (fun q => if q = "a.txt" then some "x" else none)).existsFile
        ((File.init "a.txt" true (fun q => if q = "a.txt" then some "x" else none)).delete
          (fun q => if q = "a.txt" then some "x" else none)).2 false).1 = false) :=
  (C7_delete (fun q => if q = "a.txt" then some "x" else none)
    (File.init "a.txt" true (fun q => if q = "a.txt" then some "x" else none))).1 (by decide)

/-- C9: with no intervening change to the file system, a second `refresh()`
leaves the cache exactly as the first one produced it. -/
theorem C9_refresh_idempotent (fs : FS) (f : File) :
    ((f.refresh fs false).refresh fs false).get_cache = (f.refresh fs false).get_cache := by
  rw [refresh_spec (f.refresh fs false) fs false, refresh_name]
  by_cases h : os_path_exists fs f.name = true
  · rw [if_pos h, refresh_spec f fs false, if_pos h]
  · rw [if_neg h]

end Filehandlers
namespace Filehandlers

/-- `readlinesAux` never produces an empty string: every emitted line
either carries its newline terminator or is a nonempty final fragment. -/
theorem readlinesAux_ne_empty :
    ∀ (cs acc : List Char) (x : String), x ∈ readlinesAux cs acc → x ≠ "" := by
  intro cs
  induction cs with
  | nil =>
    intro acc x hx
    unfold readlinesAux at hx
    by_cases h : acc.isEmpty
    · simp [h] at hx
    · rw [if_neg h] at hx
      rcases List.mem_singleton.mp hx with rfl
      intro he
      have hdata : acc.reverse = ([] : List Char) := congrArg String.data he
      rw [List.reverse_eq_nil_iff] at hdata
      exact h (by simp [hdata])
  | cons c rest ih =>
    intro acc x hx
    unfold readlinesAux at hx
    by_cases h : c = '\n'
    · rw [if_pos h] at hx
      rcases List.mem_cons.mp hx with rfl | h1
      · intro he
        have hdata : acc.reverse ++ ['\n'] = ([] : List Char) := congrArg String.data he
        simp at hdata
      · exact ih [] x h1
    · rw [if_neg h] at hx
      exact ih (c :: acc) x hx

/-- When no element at or after position `index` of the list is the empty
string, the slim test of the refresh loop never fires, so the slim pass
computes exactly what the plain pass computes. -/
theorem refreshLoop_slim_eq :
    ∀ (fuel index : Nat) (cache : List String),
    (∀ (j : Nat) (hj : j < cache.length), index ≤ j → cache.get ⟨j, hj⟩ ≠ "") →
    refreshLoop true fuel index cache = refreshLoop false fuel index cache := by
  intro fuel
  induction fuel with
  | zero =>
    intro _ _ _
    rfl
  | succ n ih =>
    intro index cache h
    unfold refreshLoop
    by_cases hlt : index < cache.length
    · rw [dif_pos hlt, dif_pos hlt]
      have hne : cache.get ⟨index, hlt⟩ ≠ "" := h index hlt (Nat.le_refl _)
      have hbeq : (cache.get ⟨index, hlt⟩ == "") = false := beq_eq_false_iff_ne.mpr hne
      rw [hbeq, Bool.and_false, Bool.and_false, if_neg (by simp), if_neg (by simp)]
      apply ih
      intro j hj hij
      have hjl : j < cache.length := by simpa using hj
      have hji : index ≠ j := by omega
      have hget : (cache.set index (stripNewlines (cache.get ⟨index, hlt⟩))).get ⟨j, hj⟩
          = cache.get ⟨j, hjl⟩ := by
        simp [List.get_eq_getElem, List.getElem_set_ne hji]
      rw [hget]
      exact h j hjl (by omega)
    · rw [dif_neg hlt, dif_neg hlt]

/-- C10: for every file system and handle, `refresh(slim=True)` produces
exactly the same handle — in particular the same cache — as
`refresh(slim=False)`: the slim filter compares each line against the empty
string before its newline is stripped, and `readlines` never yields an
empty line, so the filter removes nothing. -/
theorem C10_slim_refresh_equivalence (fs : FS) (f : File) :
    f.refresh fs true = f.refresh fs false := by
  rw [refresh_spec, refresh_spec]
  by_cases h : os_path_exists fs f.name = true
  · rw [if_pos h, if_pos h]
    have heq : refreshLoop true (readlines ((fs f.name).getD "")).length 0
          (readlines ((fs f.name).getD ""))
        = refreshLoop false (readlines ((fs f.name).getD "")).length 0
          (readlines ((fs f.name).getD "")) := by
      apply refreshLoop_slim_eq
      intro j hj _
      exact readlinesAux_ne_empty _ [] _ (List.get_mem _ j hj)
    rw [heq]
  · rw [if_neg h, if_neg h]

/-- C8: `load_from_json` is exactly the JSON decoding of
`get_file_contents_singlestring`: it returns the decoded structure of the
whole content and signals a decode error precisely when the content is not
a syntactically valid JSON document; on a file containing the one-member
object binding "a" to 1 it returns that mapping, and on a file containing
"not json" it signals the decode error.  The closing conjuncts check the
modelled decoder against JSON syntax from both sides: fractional and
exponent numbers and unicode and short escapes are accepted, while a
leading-zero integer, a raw control character inside a string literal, a
trailing comma, and a document followed by extra data are decode errors. -/
theorem C8_load_json (fs : FS) (f : File) (s : String)
    (h : f.get_file_contents_singlestring fs = some s) :
    (f.load_from_json fs = some (jsonLoads s))
    ∧ (f.load_from_json fs = some none ↔ jsonLoads s = none)
    ∧ (s = "\x7b\"a\": 1\x7d" →
        f.load_from_json fs = some (some (JsonValue.obj [("a", JsonValue.num 1)])))
    ∧ (s = "not json" → f.load_from_json fs = some none)
    ∧ jsonLoads "1.5" = some (JsonValue.num (mkRat 3 2))
    ∧ jsonLoads "-1.5e-2" = some (JsonValue.num (mkRat (-3) 200))
    ∧ jsonLoads "1e6" = some (JsonValue.num 1000000)
    ∧ jsonLoads "\"\\u0041\\b\\f\"" = some (JsonValue.str (String.mk ['A', Char.ofNat 8, Char.ofNat 12]))
    ∧ jsonLoads "01" = none
    ∧ jsonLoads (String.mk ['\"', Char.ofNat 9, '\"']) = none
    ∧ jsonLoads "[1,]" = none
    ∧ jsonLoads "1 2" = none := by
  have hl : f.load_from_json fs = some (jsonLoads s) := by
    unfold File.load_from_json
    rw [h]
    rfl
  refine ⟨hl, by rw [hl, Option.some_inj], ?_, ?_, rfl, rfl, rfl, rfl, rfl, rfl, rfl, rfl⟩
  · intro hs
    subst hs
    rw [hl]
    rfl
  · intro hs
    subst hs
    rw [hl]
    rfl

/-- Witness for C8 at a concrete input: a file whose content is the JSON
document consisting of one object member binding "a" to 1. -/
theorem C8_load_json_witness :
    (File.init "d.json" true
        (fun q => if q = "d.json" then some "\x7b\"a\": 1\x7d" else none)).load_from_json
      (fun q => if q = "d.json" then some "\x7b\"a\": 1\x7d" else none)
      = some (some (JsonValue.obj [("a", JsonValue.num 1)])) :=
  (C8_load_json (fun q => if q = "d.json" then some "\x7b\"a\": 1\x7d" else none)
    (File.init "d.json" true
      (fun q => if q = "d.json" then some "\x7b\"a\": 1\x7d" else none))
    "\x7b\"a\": 1\x7d" (by decide)).2.2.1 rfl

end Filehandlers
